import Mathlib

/-!
Shallow embedding of `ahasura.py` (version 1.4.1), a small sync/async Hasura
client. Python dictionaries are modelled as association lists with unique
keys and insertion-order semantics; JSON values as an inductive type;
exceptions (`HasuraError`, `AssertionError`, `KeyError`, `IndexError`,
`TypeError`) as an `Except` error type.
-/

namespace Ahasura

/-- Parsed JSON values.  Numbers are modelled as integers: no claim involves
numeric arithmetic, and this keeps equality decidable. -/
inductive Json where
  | null : Json
  | bool (b : Bool) : Json
  | str (s : String) : Json
  | num (n : Int) : Json
  | arr (xs : List Json) : Json
  | obj (kvs : List (String × Json)) : Json

/-- A parsed JSON object / Python `Dict[str, Any]`, as an association list. -/
abbrev JDict := List (String × Json)

/-- Structural equality of JSON values (Python `==` on parsed JSON). -/
def Json.beq : Json → Json → Bool
  | .null, .null => true
  | .bool a, .bool b => a == b
  | .str a, .str b => a == b
  | .num a, .num b => a == b
  | .arr xs, .arr ys => goList xs ys
  | .obj xs, .obj ys => goObj xs ys
  | _, _ => false
where
  goList : List Json → List Json → Bool
    | [], [] => true
    | x :: xs, y :: ys => Json.beq x y && goList xs ys
    | _, _ => false
  goObj : JDict → JDict → Bool
    | [], [] => true
    | (k, v) :: xs, (l, w) :: ys => k == l && Json.beq v w && goObj xs ys
    | _, _ => false

instance : BEq Json := ⟨Json.beq⟩

/-- The exceptions the Python code can raise. `hasuraError` carries the full
parsed response body, as `HasuraError.__init__` stores it in `self.response`. -/
inductive Fault where
  | hasuraError (response : JDict) : Fault
  | assertFail : Fault
  | keyError : Fault
  | indexError : Fault
  | typeError : Fault

/-- Python `key in d` for a dict. -/
def hasKey (d : JDict) (k : String) : Bool :=
  (d.lookup k).isSome

/-- Python `d[key]` for a dict: `KeyError` when the key is absent. -/
def dictGetItem (d : JDict) (k : String) : Except Fault Json :=
  match d.lookup k with
  | some v => .ok v
  | none => .error .keyError

/-- Python `j == s` for a JSON value and a string literal. -/
def Json.eqStr : Json → String → Bool
  | .str t, s => t == s
  | _, _ => false

/-- Whether a JSON value is a mapping (Python `isinstance(j, dict)`). -/
def Json.isObj : Json → Bool
  | .obj _ => true
  | _ => false

/-- Python dict assignment `d[k] = v`: replaces the value in place if the key
exists, appends otherwise (insertion order preserved). -/
def dictInsert {α β : Type} [BEq α] (d : List (α × β)) (k : α) (v : β) :
    List (α × β) :=
  if d.any (fun p => p.1 == k) then
    d.map (fun p => if p.1 == k then (p.1, v) else p)
  else
    d ++ [(k, v)]

/-- Python `d.update(h)`: assign each pair of `h` into `d` in order. -/
def dictUpdate {α β : Type} [BEq α] (d h : List (α × β)) : List (α × β) :=
  h.foldl (fun acc p => dictInsert acc p.1 p.2) d

/-- Python `dict(pairs)`: build a dict by assigning each pair in order. -/
def dictOfPairs {α β : Type} [BEq α] (ps : List (α × β)) : List (α × β) :=
  dictUpdate [] ps

/-- Python iteration over a JSON value: lists yield elements, strings yield
one-character strings, dicts yield their keys; other values are not iterable
(`TypeError`). -/
def Json.toIter : Json → Except Fault (List Json)
  | .arr xs => .ok xs
  | .str s => .ok (s.data.map (fun c => Json.str (String.mk [c])))
  | .obj kvs => .ok (kvs.map (fun kv => Json.str kv.1))
  | _ => .error .typeError

/-- Whether a JSON value may be a Python dict key: lists and dicts are
unhashable. -/
def Json.hashable : Json → Bool
  | .arr _ => false
  | .obj _ => false
  | _ => true

/-- Python `zip(a, b)` over two JSON values, as used by `_get_rows`. -/
def zipPy (a b : Json) : Except Fault (List (Json × Json)) := do
  let xs ← a.toIter
  let ys ← b.toIter
  return xs.zip ys

/-- Python `dict(pairs)` over JSON keys: `TypeError` on an unhashable key. -/
def pyDict (ps : List (Json × Json)) : Except Fault (List (Json × Json)) :=
  if ps.all (fun p => p.1.hashable) then .ok (dictOfPairs ps)
  else .error .typeError

/-- Python `j[i]` for a JSON value and a non-negative integer index. -/
def jsonIndex (j : Json) (i : Nat) : Except Fault Json :=
  match j with
  | .arr xs =>
    match xs.get? i with
    | some x => .ok x
    | none => .error .indexError
  | .str s =>
    match s.data.get? i with
    | some c => .ok (Json.str (String.mk [c]))
    | none => .error .indexError
  | .obj _ => .error .keyError
  | _ => .error .typeError

/-- Python `j[i:]` for a JSON value and a non-negative integer index. -/
def jsonSliceFrom (j : Json) (i : Nat) : Except Fault Json :=
  match j with
  | .arr xs => .ok (Json.arr (xs.drop i))
  | .str s => .ok (Json.str (String.mk (s.data.drop i)))
  | _ => .error .typeError

/-- Python-style whitespace, as stripped by `str.lstrip()` (ASCII subset). -/
def pyIsSpace (c : Char) : Bool :=
  c == ' ' || c == '\t' || c == '\n' || c == '\r' ||
  c == '\x0b' || c == '\x0c'

/-- Python `s.lstrip()`. -/
def pyLstrip (s : String) : String :=
  String.mk (s.data.dropWhile pyIsSpace)

/-- Python `s.endswith(t)`: `t` is a suffix of `s`. -/
def pyEndswith (s t : String) : Bool :=
  t.data.isSuffixOf s.data

/-- The `ADMIN` sentinel authorization selector. -/
def ADMIN : String := "ADMIN"

/-- The client configuration stored by `Hasura.__init__`. -/
structure Hasura where
  graphql_endpoint : String
  sql_endpoint : String
  admin_secret : Option String
  timeout : Option Float

/-- `Hasura.__init__`: asserts the endpoint carries no trailing `/`,
`/v1/graphql` or `/v2/query`, then stores the derived endpoints, the admin
secret and the timeout. -/
def Hasura.init (endpoint : String) (admin_secret : Option String)
    (timeout : Option Float) : Except Fault Hasura :=
  if pyEndswith endpoint "/" then .error .assertFail
  else if pyEndswith endpoint "/v1/graphql" then .error .assertFail
  else if pyEndswith endpoint "/v2/query" then .error .assertFail
  else .ok
    { graphql_endpoint := endpoint ++ "/v1/graphql"
      sql_endpoint := endpoint ++ "/v2/query"
      admin_secret := admin_secret
      timeout := timeout }

/-- Truthiness of `Optional[str]`: `None` and `""` are falsy. -/
def strOptTruthy : Option String → Bool
  | none => false
  | some s => s != ""

/-- `Hasura._get_headers`: admin-secret header for the `ADMIN` selector
(asserting a truthy secret), verbatim `authorization` header otherwise;
caller headers are merged on top when truthy. -/
def Hasura._get_headers (self : Hasura) (auth : String)
    (headers : Option (List (String × String))) :
    Except Fault (List (String × String)) := do
  let result ←
    if auth == ADMIN then
      if strOptTruthy self.admin_secret then
        pure [("x-hasura-admin-secret", self.admin_secret.getD "")]
      else
        throw Fault.assertFail
    else
      pure [("authorization", auth)]
  if !(headers.getD []).isEmpty then
    return dictUpdate result (headers.getD [])
  return result

/-- `Hasura._get_run_sql_content`: the SQL request body, with `read_only`
computed as `query.lstrip()[:6].upper() == "SELECT"`. -/
def Hasura._get_run_sql_content (query : String) : Json :=
  let read_only : Bool :=
    ((pyLstrip query).data.take 6).map Char.toUpper == "SELECT".data
  Json.obj [("type", Json.str "run_sql"),
            ("args", Json.obj [("sql", Json.str query),
                               ("read_only", Json.bool read_only)])]

/-- The spec's read-only detection, stated in its own words: take the first
6 characters of the query with leading whitespace stripped and compare them
case-insensitively with `"SELECT"`; fewer than 6 characters compare
unequal. -/
def read_only_spec (q : String) : Bool :=
  decide (((pyLstrip q).data.take 6).length = 6 ∧
    ∀ p ∈ ((pyLstrip q).data.take 6).zip "SELECT".data,
      p.1.toUpper = p.2.toUpper)

/-- `Hasura._get_data`: raise `HasuraError` on an `errors` key, otherwise
return the `data` mapping, asserting it is a dict. -/
def Hasura._get_data (response_json : JDict) : Except Fault JDict := do
  if hasKey response_json "errors" then
    throw (Fault.hasuraError response_json)
  let data ← dictGetItem response_json "data"
  match data with
  | .obj d => return d
  | _ => throw Fault.assertFail

/-- `Hasura._get_rows`: raise `HasuraError` on an `error` key; `CommandOk`
yields `[{"ok": True}]`; `TuplesOk` zips each remaining row of `result` with
the first element (the column names) into a dict; any other `result_type`
fails an assertion. -/
def Hasura._get_rows (response_json : JDict) :
    Except Fault (List (List (Json × Json))) := do
  if hasKey response_json "error" then
    throw (Fault.hasuraError response_json)
  let rt ← dictGetItem response_json "result_type"
  if rt.eqStr "CommandOk" then
    return [[(Json.str "ok", Json.bool true)]]
  if !rt.eqStr "TuplesOk" then
    throw Fault.assertFail
  let result ← dictGetItem response_json "result"
  let column_names ← jsonIndex result 0
  let rest ← jsonSliceFrom result 1
  let rows ← rest.toIter
  rows.mapM (fun row => do pyDict (← zipPy column_names row))

/-- One HTTP POST exchange as performed by `httpx.post` /
`AsyncClient.post`: the URL, headers, JSON body, and timeout. -/
structure Request where
  url : String
  headers : List (String × String)
  json : Json
  timeout : Option Float

/-- The transport collaborator: maps a request to the parsed JSON body of
the response (`response.json()`). -/
abbrev Transport := Request → JDict

/-- `Hasura.gql`: POST `{"query": ..., "variables": ...}` to the GraphQL
endpoint and normalize via `_get_data`. -/
def Hasura.gql (self : Hasura) (query : String) (auth : String)
    (headers : Option (List (String × String))) (vars : JDict)
    (post : Transport) : Except Fault JDict := do
  let hs ← self._get_headers auth headers
  let response := post
    { url := self.graphql_endpoint
      headers := hs
      json := Json.obj [("query", Json.str query),
                        ("variables", Json.obj vars)]
      timeout := self.timeout }
  Hasura._get_data response

/-- `Hasura.agql`: the async variant of `gql`; performs the same exchange. -/
def Hasura.agql (self : Hasura) (query : String) (auth : String)
    (headers : Option (List (String × String))) (vars : JDict)
    (post : Transport) : Except Fault JDict := do
  let hs ← self._get_headers auth headers
  let response := post
    { url := self.graphql_endpoint
      headers := hs
      json := Json.obj [("query", Json.str query),
                        ("variables", Json.obj vars)]
      timeout := self.timeout }
  Hasura._get_data response

/-- `Hasura.sql`: POST the `run_sql` body to the SQL endpoint with `ADMIN`
headers and normalize via `_get_rows`. -/
def Hasura.sql (self : Hasura) (query : String)
    (headers : Option (List (String × String))) (post : Transport) :
    Except Fault (List (List (Json × Json))) := do
  let hs ← self._get_headers ADMIN headers
  let response := post
    { url := self.sql_endpoint
      headers := hs
      json := Hasura._get_run_sql_content query
      timeout := self.timeout }
  Hasura._get_rows response

/-- `Hasura.asql`: the async variant of `sql`; performs the same exchange. -/
def Hasura.asql (self : Hasura) (query : String)
    (headers : Option (List (String × String))) (post : Transport) :
    Except Fault (List (List (Json × Json))) := do
  let hs ← self._get_headers ADMIN headers
  let response := post
    { url := self.sql_endpoint
      headers := hs
      json := Hasura._get_run_sql_content query
      timeout := self.timeout }
  Hasura._get_rows response

/-- The request `Hasura.gql` hands to the transport (the argument list of
its `httpx.post` call). -/
def Hasura.gql_sent (self : Hasura) (query : String) (auth : String)
    (headers : Option (List (String × String))) (vars : JDict) :
    Except Fault Request := do
  let hs ← self._get_headers auth headers
  return { url := self.graphql_endpoint
           headers := hs
           json := Json.obj [("query", Json.str query),
                             ("variables", Json.obj vars)]
           timeout := self.timeout }

/-- The request `Hasura.agql` hands to the transport. -/
def Hasura.agql_sent (self : Hasura) (query : String) (auth : String)
    (headers : Option (List (String × String))) (vars : JDict) :
    Except Fault Request := do
  let hs ← self._get_headers auth headers
  return { url := self.graphql_endpoint
           headers := hs
           json := Json.obj [("query", Json.str query),
                             ("variables", Json.obj vars)]
           timeout := self.timeout }

/-- The request `Hasura.sql` hands to the transport. -/
def Hasura.sql_sent (self : Hasura) (query : String)
    (headers : Option (List (String × String))) : Except Fault Request := do
  let hs ← self._get_headers ADMIN headers
  return { url := self.sql_endpoint
           headers := hs
           json := Hasura._get_run_sql_content query
           timeout := self.timeout }

/-- The request `Hasura.asql` hands to the transport. -/
def Hasura.asql_sent (self : Hasura) (query : String)
    (headers : Option (List (String × String))) : Except Fault Request := do
  let hs ← self._get_headers ADMIN headers
  return { url := self.sql_endpoint
           headers := hs
           json := Hasura._get_run_sql_content query
           timeout := self.timeout }

/-! ### Helper lemmas -/

theorem ok_bind {ε α β : Type} (a : α) (f : α → Except ε β) :
    (Except.ok a >>= f) = f a := rfl

theorem error_bind {ε α β : Type} (e : ε) (f : α → Except ε β) :
    ((Except.error e : Except ε α) >>= f) = Except.error e := rfl

theorem pure_bind_ex {ε α β : Type} (a : α) (f : α → Except ε β) :
    ((pure a : Except ε α) >>= f) = f a := rfl

theorem throw_bind_ex {ε α β : Type} (e : ε) (f : α → Except ε β) :
    ((throw e : Except ε α) >>= f) = (throw e : Except ε β) := rfl

theorem throw_eq_error {ε α : Type} (e : ε) :
    (throw e : Except ε α) = Except.error e := rfl

theorem pure_eq_ok {ε α : Type} (a : α) :
    (pure a : Except ε α) = Except.ok a := rfl

theorem map_ok_ex {ε α β : Type} (f : α → β) (a : α) :
    Except.map f (Except.ok a : Except ε α) = Except.ok (f a) := rfl

theorem eqStr_iff (j : Json) (s : String) :
    j.eqStr s = true ↔ j = Json.str s := by
  cases j <;> simp [Json.eqStr]

theorem json_beq_str (a b : String) :
    (Json.str a == Json.str b) = (a == b) := rfl

theorem str_hashable (a : String) : (Json.str a).hashable = true := rfl

/-! ### C3: SQL error key takes precedence -/

/-- C3: whenever the parsed SQL response body contains an `error` key,
`_get_rows` raises `HasuraError` carrying the full body, before any
inspection of `result_type`. -/
theorem sql_error_raises_hasuraError (body : JDict)
    (h : hasKey body "error" = true) :
    Hasura._get_rows body = .error (.hasuraError body) := by
  simp [Hasura._get_rows, h, throw_bind_ex, throw_eq_error, error_bind]

/-- Witness for C3: a body carrying both an `error` key and an undocumented
`result_type` still raises `HasuraError` with the whole body attached. -/
theorem sql_error_raises_hasuraError_witness :
    Hasura._get_rows
        [("error", Json.str "boom"), ("result_type", Json.str "Weird")] =
      .error (.hasuraError
        [("error", Json.str "boom"), ("result_type", Json.str "Weird")]) :=
  sql_error_raises_hasuraError
    [("error", Json.str "boom"), ("result_type", Json.str "Weird")] rfl

/-! ### C2: GraphQL response normalization -/

/-- C2: `_get_data` raises `HasuraError` with the full body when `errors` is
present (taking precedence over `data`); otherwise it returns the `data`
mapping, and raises an assertion fault (not a `HasuraError`) when `data` is
present but not a mapping. -/
theorem gql_data_normalization (body : JDict) :
    (hasKey body "errors" = true →
      Hasura._get_data body = .error (.hasuraError body)) ∧
    (hasKey body "errors" = false →
      ∀ d : JDict, body.lookup "data" = some (Json.obj d) →
        Hasura._get_data body = .ok d) ∧
    (hasKey body "errors" = false →
      ∀ v : Json, body.lookup "data" = some v → v.isObj = false →
        Hasura._get_data body = .error .assertFail) := by
  refine ⟨fun h => ?_, fun h d hd => ?_, fun h v hv hobj => ?_⟩
  · simp [Hasura._get_data, h, throw_bind_ex, throw_eq_error, error_bind]
  · simp [Hasura._get_data, h, dictGetItem, hd, ok_bind, pure_eq_ok]
  · simp only [Hasura._get_data, h, dictGetItem, hv]
    cases v <;> simp_all [Json.isObj, ok_bind, throw_eq_error]

/-- Witness for C2: the three cases at concrete bodies — `errors` present
(even alongside `data`), a well-formed `data` mapping, and a non-mapping
`data` value. -/
theorem gql_data_normalization_witness :
    (Hasura._get_data [("errors", Json.str "boom"), ("data", Json.obj [])] =
      .error (.hasuraError
        [("errors", Json.str "boom"), ("data", Json.obj [])])) ∧
    (Hasura._get_data [("data", Json.obj [("item", Json.null)])] =
      .ok [("item", Json.null)]) ∧
    (Hasura._get_data [("data", Json.str "nope")] = .error .assertFail) :=
  ⟨(gql_data_normalization
      [("errors", Json.str "boom"), ("data", Json.obj [])]).1 rfl,
   (gql_data_normalization
      [("data", Json.obj [("item", Json.null)])]).2.1 rfl
      [("item", Json.null)] rfl,
   (gql_data_normalization
      [("data", Json.str "nope")]).2.2 rfl (Json.str "nope") rfl rfl⟩

/-! ### C7: CommandOk and unknown result types -/

/-- C7: without an `error` key, a `CommandOk` result type normalizes to the
single row `[{"ok": true}]` regardless of other fields, and any result type
other than `CommandOk` or `TuplesOk` raises an assertion fault. -/
theorem sql_commandOk_normalization (body : JDict)
    (h : hasKey body "error" = false) :
    (body.lookup "result_type" = some (Json.str "CommandOk") →
      Hasura._get_rows body = .ok [[(Json.str "ok", Json.bool true)]]) ∧
    (∀ rt : Json, body.lookup "result_type" = some rt →
      rt ≠ Json.str "CommandOk" → rt ≠ Json.str "TuplesOk" →
      Hasura._get_rows body = .error .assertFail) := by
  constructor
  · intro hrt
    simp [Hasura._get_rows, h, dictGetItem, hrt, ok_bind, Json.eqStr, pure_eq_ok]
  · intro rt hrt hc ht
    have hc' : rt.eqStr "CommandOk" = false := by
      rw [← Bool.not_eq_true, eqStr_iff]; exact hc
    have ht' : rt.eqStr "TuplesOk" = false := by
      rw [← Bool.not_eq_true, eqStr_iff]; exact ht
    simp [Hasura._get_rows, h, dictGetItem, hrt, ok_bind, hc', ht', throw_bind_ex, throw_eq_error, error_bind]

/-- Witness for C7: a `CommandOk` body with an extra field normalizes to
`[{"ok": true}]`, and an unknown `result_type` faults. -/
theorem sql_commandOk_normalization_witness :
    (Hasura._get_rows
        [("result_type", Json.str "CommandOk"), ("result", Json.null)] =
      .ok [[(Json.str "ok", Json.bool true)]]) ∧
    (Hasura._get_rows [("result_type", Json.str "CopyOut")] =
      .error .assertFail) :=
  ⟨(sql_commandOk_normalization
      [("result_type", Json.str "CommandOk"), ("result", Json.null)]
      rfl).1 rfl,
   (sql_commandOk_normalization [("result_type", Json.str "CopyOut")]
      rfl).2 (Json.str "CopyOut") rfl (by simp) (by simp)⟩

/-! ### TuplesOk machinery (C1, C9) -/

theorem mapM_ok_map {α γ β : Type} (f : γ → Except Fault β) (m : α → γ)
    (g : α → β) (xs : List α) (h : ∀ x ∈ xs, f (m x) = .ok (g x)) :
    (xs.map m).mapM f = .ok (xs.map g) := by
  rw [← List.mapM'_eq_mapM]
  induction xs with
  | nil => rfl
  | cons a as ih =>
    simp only [List.map_cons, List.mapM']
    rw [h a (by simp), ok_bind,
      ih (fun x hx => h x (List.mem_cons_of_mem a hx))]
    rfl

theorem dictUpdate_eq_append {α β : Type} [BEq α] (d ps : List (α × β))
    (h1 : ∀ p ∈ ps, (d.any fun q => q.1 == p.1) = false)
    (h2 : (ps.map Prod.fst).Pairwise fun a b => (a == b) = false) :
    dictUpdate d ps = d ++ ps := by
  induction ps generalizing d with
  | nil => simp [dictUpdate]
  | cons p ps ih =>
    obtain ⟨k, v⟩ := p
    rw [List.map_cons, List.pairwise_cons] at h2
    have hd : (d.any fun q => q.1 == k) = false := h1 (k, v) (by simp)
    have step : dictInsert d k v = d ++ [(k, v)] := by
      simp [dictInsert, hd]
    have h1' : ∀ p ∈ ps, ((d ++ [(k, v)]).any fun q => q.1 == p.1) = false := by
      intro p hp
      rw [List.any_append, Bool.or_eq_false_iff]
      refine ⟨h1 p (List.mem_cons_of_mem _ hp), ?_⟩
      simp only [List.any_cons, List.any_nil, Bool.or_false]
      exact h2.1 p.1 (List.mem_map_of_mem Prod.fst hp)
    have := ih (d ++ [(k, v)]) h1' h2.2
    calc dictUpdate d ((k, v) :: ps)
        = dictUpdate (dictInsert d k v) ps := rfl
      _ = dictUpdate (d ++ [(k, v)]) ps := by rw [step]
      _ = (d ++ [(k, v)]) ++ ps := this
      _ = d ++ ((k, v) :: ps) := by simp

theorem dictOfPairs_eq_self {α β : Type} [BEq α] (ps : List (α × β))
    (h : (ps.map Prod.fst).Pairwise fun a b => (a == b) = false) :
    dictOfPairs ps = ps := by
  have := dictUpdate_eq_append [] ps (by simp) h
  simpa [dictOfPairs] using this

theorem map_fst_zip_eq_take {α β : Type} (l1 : List α) (l2 : List β) :
    (l1.zip l2).map Prod.fst = l1.take l2.length := by
  induction l1 generalizing l2 with
  | nil => simp
  | cons a l1 ih => cases l2 <;> simp [ih]

theorem zip_str_keys_hashable (cols : List String) (vs : List Json) :
    (((cols.map Json.str).zip vs).all fun p => p.1.hashable) = true := by
  rw [List.all_eq_true]
  intro p hp
  obtain ⟨hc, -⟩ := List.of_mem_zip hp
  obtain ⟨c, -, hcp⟩ := List.mem_map.mp hc
  rw [← hcp]
  rfl

theorem zip_str_pairwise (cols : List String) (vs : List Json)
    (h : cols.Nodup) :
    (((cols.map Json.str).zip vs).map Prod.fst).Pairwise
      (fun a b => (a == b) = false) := by
  rw [map_fst_zip_eq_take]
  refine List.Pairwise.sublist (List.take_sublist _ _) ?_
  rw [List.pairwise_map]
  refine List.Pairwise.imp ?_ h
  intro a b hab
  rw [json_beq_str]
  exact beq_eq_false_iff_ne.mpr hab

theorem getRows_tuplesOk (body : JDict) (cols : List String)
    (rowVals : List (List Json))
    (he : hasKey body "error" = false)
    (ht : body.lookup "result_type" = some (Json.str "TuplesOk"))
    (hr : body.lookup "result" =
      some (Json.arr (Json.arr (cols.map Json.str) :: rowVals.map Json.arr))) :
    Hasura._get_rows body =
      .ok (rowVals.map fun vs => dictOfPairs ((cols.map Json.str).zip vs)) := by
  have hcmd : (Json.str "TuplesOk").eqStr "CommandOk" = false := by decide
  have htup : (Json.str "TuplesOk").eqStr "TuplesOk" = true := by decide
  have step : Hasura._get_rows body =
      (rowVals.map Json.arr).mapM
        (fun row => do pyDict (← zipPy (Json.arr (cols.map Json.str)) row)) := by
    simp [Hasura._get_rows, he, dictGetItem, ht, hr, ok_bind, hcmd, htup,
      jsonIndex, jsonSliceFrom, Json.toIter, List.get?, error_bind,
      pure_eq_ok, pure_bind_ex]
  rw [step]
  refine mapM_ok_map _ Json.arr _ rowVals ?_
  intro vs _
  show (do pyDict (← zipPy (Json.arr (cols.map Json.str)) (Json.arr vs))) = _
  simp [zipPy, Json.toIter, ok_bind, pure_bind_ex, pyDict,
    zip_str_keys_hashable, pure_eq_ok]

theorem getRows_tuplesOk_nodup (body : JDict) (cols : List String)
    (rowVals : List (List Json))
    (he : hasKey body "error" = false)
    (ht : body.lookup "result_type" = some (Json.str "TuplesOk"))
    (hr : body.lookup "result" =
      some (Json.arr (Json.arr (cols.map Json.str) :: rowVals.map Json.arr)))
    (hnd : cols.Nodup) :
    Hasura._get_rows body =
      .ok (rowVals.map fun vs => (cols.map Json.str).zip vs) := by
  have hfun : (fun vs => dictOfPairs ((cols.map Json.str).zip vs)) =
      (fun vs : List Json => (cols.map Json.str).zip vs) := by
    funext vs
    exact dictOfPairs_eq_self _ (zip_str_pairwise cols vs hnd)
  rw [getRows_tuplesOk body cols rowVals he ht hr, hfun]

/-- C1: without an `error` key, a `TuplesOk` body whose `result` holds the
column names followed by equal-length row tuples normalizes to the rows
zipped with the column names into row mappings, in original order; with
distinct column names each row mapping is exactly the zip, covering every
column. -/
theorem tuplesOk_normalization (body : JDict) (cols : List String)
    (rowVals : List (List Json))
    (he : hasKey body "error" = false)
    (ht : body.lookup "result_type" = some (Json.str "TuplesOk"))
    (hr : body.lookup "result" =
      some (Json.arr (Json.arr (cols.map Json.str) :: rowVals.map Json.arr)))
    (hlen : ∀ vs ∈ rowVals, vs.length = cols.length) :
    Hasura._get_rows body =
      .ok (rowVals.map fun vs => dictOfPairs ((cols.map Json.str).zip vs)) ∧
    (cols.Nodup →
      Hasura._get_rows body =
        .ok (rowVals.map fun vs => (cols.map Json.str).zip vs) ∧
      ∀ vs ∈ rowVals,
        ((cols.map Json.str).zip vs).map Prod.fst = cols.map Json.str) := by
  refine ⟨getRows_tuplesOk body cols rowVals he ht hr, fun hnd => ?_⟩
  refine ⟨getRows_tuplesOk_nodup body cols rowVals he ht hr hnd, ?_⟩
  intro vs hvs
  rw [map_fst_zip_eq_take, hlen vs hvs, ← List.length_map cols Json.str,
    List.take_length]

/-- Witness for C1: the spec's example response normalizes to the two row
mappings in order. -/
theorem tuplesOk_normalization_witness :
    Hasura._get_rows
        [("result_type", Json.str "TuplesOk"),
         ("result", Json.arr
           [Json.arr [Json.str "c1", Json.str "c2"],
            Json.arr [Json.str "v11", Json.str "v12"],
            Json.arr [Json.str "v21", Json.str "v22"]])] =
      .ok [[(Json.str "c1", Json.str "v11"), (Json.str "c2", Json.str "v12")],
           [(Json.str "c1", Json.str "v21"), (Json.str "c2", Json.str "v22")]] :=
  ((tuplesOk_normalization
      [("result_type", Json.str "TuplesOk"),
       ("result", Json.arr
         [Json.arr [Json.str "c1", Json.str "c2"],
          Json.arr [Json.str "v11", Json.str "v12"],
          Json.arr [Json.str "v21", Json.str "v22"]])]
      ["c1", "c2"]
      [[Json.str "v11", Json.str "v12"], [Json.str "v21", Json.str "v22"]]
      rfl rfl rfl (by simp)).2 (by decide)).1

/-- C9: without an `error` key, a `TuplesOk` body whose row tuples need not
match the column count still normalizes without fault; with distinct column
names each row mapping is the zip of the column names with the row tuple,
whose length is the minimum of the two lengths (excess names or values are
dropped). -/
theorem tuplesOk_mismatched_lengths (body : JDict) (cols : List String)
    (rowVals : List (List Json))
    (he : hasKey body "error" = false)
    (ht : body.lookup "result_type" = some (Json.str "TuplesOk"))
    (hr : body.lookup "result" =
      some (Json.arr (Json.arr (cols.map Json.str) :: rowVals.map Json.arr))) :
    Hasura._get_rows body =
      .ok (rowVals.map fun vs => dictOfPairs ((cols.map Json.str).zip vs)) ∧
    (cols.Nodup →
      Hasura._get_rows body =
        .ok (rowVals.map fun vs => (cols.map Json.str).zip vs) ∧
      ∀ vs ∈ rowVals,
        ((cols.map Json.str).zip vs).length = min cols.length vs.length) := by
  refine ⟨getRows_tuplesOk body cols rowVals he ht hr, fun hnd => ?_⟩
  refine ⟨getRows_tuplesOk_nodup body cols rowVals he ht hr hnd, ?_⟩
  intro vs _
  rw [List.length_zip, List.length_map]

/-- Witness for C9: two columns against a three-value row and a one-value
row; no fault, and each mapping keeps only the pairs up to the shorter
length. -/
theorem tuplesOk_mismatched_lengths_witness :
    Hasura._get_rows
        [("result_type", Json.str "TuplesOk"),
         ("result", Json.arr
           [Json.arr [Json.str "c1", Json.str "c2"],
            Json.arr [Json.str "v11", Json.str "v12", Json.str "v13"],
            Json.arr [Json.str "v21"]])] =
      .ok [[(Json.str "c1", Json.str "v11"), (Json.str "c2", Json.str "v12")],
           [(Json.str "c1", Json.str "v21")]] :=
  ((tuplesOk_mismatched_lengths
      [("result_type", Json.str "TuplesOk"),
       ("result", Json.arr
         [Json.arr [Json.str "c1", Json.str "c2"],
          Json.arr [Json.str "v11", Json.str "v12", Json.str "v13"],
          Json.arr [Json.str "v21"]])]
      ["c1", "c2"]
      [[Json.str "v11", Json.str "v12", Json.str "v13"], [Json.str "v21"]]
      rfl rfl rfl).2 (by decide)).1

/-! ### Header merge machinery (C4, C10) -/

theorem lookup_eq_none_of_any_eq_false {α β : Type} [BEq α] [LawfulBEq α]
    (d : List (α × β)) (k : α)
    (h : (d.any fun p => p.1 == k) = false) : d.lookup k = none := by
  induction d with
  | nil => rfl
  | cons p d ih =>
    simp only [List.any_cons, Bool.or_eq_false_iff] at h
    rw [List.lookup_cons]
    have hne : (k == p.1) = false := by
      rw [beq_eq_false_iff_ne] at h ⊢
      exact fun hkp => h.1 hkp.symm
    simp [hne, ih h.2]

theorem lookup_eq_none_of_not_mem {α β : Type} [BEq α] [LawfulBEq α]
    (H : List (α × β)) (k : α) (h : k ∉ H.map Prod.fst) :
    H.lookup k = none := by
  induction H with
  | nil => rfl
  | cons p H ih =>
    simp only [List.map_cons, List.mem_cons, not_or] at h
    rw [List.lookup_cons]
    have : (k == p.1) = false := beq_eq_false_iff_ne.mpr h.1
    simp [this, ih h.2]

theorem lookup_isSome_of_any {α β : Type} [BEq α] [LawfulBEq α]
    (d : List (α × β)) (k : α)
    (h : (d.any fun p => p.1 == k) = true) : ∃ w, d.lookup k = some w := by
  induction d with
  | nil => simp at h
  | cons p d ih =>
    rw [List.lookup_cons]
    by_cases hk : k = p.1
    · exact ⟨p.2, by simp [hk]⟩
    · have hk' : (k == p.1) = false := beq_eq_false_iff_ne.mpr hk
      simp only [List.any_cons, Bool.or_eq_true] at h
      rcases h with h | h
      · rw [beq_iff_eq] at h
        exact absurd h.symm hk
      · simpa [hk'] using ih h

theorem lookup_map_set {α β : Type} [BEq α] [LawfulBEq α]
    (d : List (α × β)) (k : α) (v : β) (k' : α) :
    (d.map fun p => if p.1 == k then (p.1, v) else p).lookup k' =
      if k' == k then (d.lookup k).map (fun _ => v) else d.lookup k' := by
  induction d with
  | nil => by_cases h : (k' == k) = true <;> simp [h]
  | cons p d ih =>
    obtain ⟨a, b⟩ := p
    by_cases hak : a = k
    · subst hak
      by_cases hk' : k' = a
      · subst hk'
        simp [List.lookup_cons, ih]
      · have h1 : (k' == a) = false := beq_eq_false_iff_ne.mpr hk'
        simp [List.lookup_cons, h1, ih]
    · have h1 : (a == k) = false := beq_eq_false_iff_ne.mpr hak
      by_cases hk' : k' = a
      · subst hk'
        have h2 : (k' == k) = false := beq_eq_false_iff_ne.mpr hak
        simp [List.lookup_cons, h1, h2]
      · have h2 : (k' == a) = false := beq_eq_false_iff_ne.mpr hk'
        have h3 : (k == a) = false :=
          beq_eq_false_iff_ne.mpr (fun hka => hak hka.symm)
        simp [List.lookup_cons, h1, h2, h3, ih]

theorem lookup_dictInsert {α β : Type} [BEq α] [LawfulBEq α]
    (d : List (α × β)) (k : α) (v : β) (k' : α) :
    (dictInsert d k v).lookup k' = if k' == k then some v else d.lookup k' := by
  unfold dictInsert
  by_cases h : (d.any fun p => p.1 == k) = true
  · rw [if_pos h, lookup_map_set]
    by_cases hk : k' = k
    · obtain ⟨w, hw⟩ := lookup_isSome_of_any d k h
      simp [hk, hw]
    · simp [beq_eq_false_iff_ne.mpr hk]
  · rw [if_neg h, List.lookup_append]
    have hfalse : (d.any fun p => p.1 == k) = false := Bool.eq_false_iff.mpr h
    by_cases hk : k' = k
    · subst hk
      simp [lookup_eq_none_of_any_eq_false d k' hfalse]
    · have hk' : (k' == k) = false := beq_eq_false_iff_ne.mpr hk
      simp [List.lookup_cons, hk']

theorem lookup_dictUpdate {α β : Type} [BEq α] [LawfulBEq α]
    (d H : List (α × β)) (hH : (H.map Prod.fst).Nodup) (k : α) :
    (dictUpdate d H).lookup k = (H.lookup k).or (d.lookup k) := by
  induction H generalizing d with
  | nil => simp [dictUpdate]
  | cons p H ih =>
    obtain ⟨a, b⟩ := p
    rw [List.map_cons, List.nodup_cons] at hH
    have step : dictUpdate d ((a, b) :: H) = dictUpdate (dictInsert d a b) H :=
      rfl
    rw [step, ih (dictInsert d a b) hH.2, lookup_dictInsert, List.lookup_cons]
    by_cases hk : k = a
    · subst hk
      have : H.lookup k = none := lookup_eq_none_of_not_mem H k hH.1
      simp [this]
    · simp [beq_eq_false_iff_ne.mpr hk]

theorem headers_merge (base H : List (String × String))
    (hH : (H.map Prod.fst).Nodup) (k : String) :
    (if !H.isEmpty then dictUpdate base H else base).lookup k =
      (H.lookup k).or (base.lookup k) := by
  cases H with
  | nil => simp
  | cons p H' =>
    simpa using lookup_dictUpdate base (p :: H') hH k

/-! ### C4: header derivation merges caller headers on top -/

/-- C4: for any caller headers `H`, the derived header mapping behaves as the
base header (`x-hasura-admin-secret` for `ADMIN` with a truthy secret,
verbatim `authorization` otherwise) merged with `H`, where `H` wins every key
collision — stated via point-wise lookup. -/
theorem header_derivation (h : Hasura) (v : String)
    (H : List (String × String)) (hH : (H.map Prod.fst).Nodup) :
    (∀ S : String, v = ADMIN → h.admin_secret = some S → S ≠ "" →
      ∀ k : String,
        (h._get_headers v (some H)).map (fun R => R.lookup k) =
          .ok ((H.lookup k).or
            (List.lookup k [("x-hasura-admin-secret", S)]))) ∧
    (v ≠ ADMIN → ∀ k : String,
      (h._get_headers v (some H)).map (fun R => R.lookup k) =
        .ok ((H.lookup k).or (List.lookup k [("authorization", v)]))) := by
  constructor
  · intro S hv hsec hS k
    subst hv
    have h1 : strOptTruthy h.admin_secret = true := by
      simp [hsec, strOptTruthy, hS]
    have h2 : strOptTruthy (some S) = true := by simp [strOptTruthy, hS]
    have step : h._get_headers ADMIN (some H) =
        .ok (if !H.isEmpty then
          dictUpdate [("x-hasura-admin-secret", S)] H
        else [("x-hasura-admin-secret", S)]) := by
      by_cases hemp : H.isEmpty <;>
        simp [Hasura._get_headers, h1, h2, hsec, hemp, pure_bind_ex,
          pure_eq_ok, ok_bind]
    rw [step, map_ok_ex]
    exact congrArg Except.ok (headers_merge _ H hH k)
  · intro hv k
    have h1 : (v == ADMIN) = false := beq_eq_false_iff_ne.mpr hv
    have step : h._get_headers v (some H) =
        .ok (if !H.isEmpty then
          dictUpdate [("authorization", v)] H
        else [("authorization", v)]) := by
      by_cases hemp : H.isEmpty <;>
        simp [Hasura._get_headers, h1, hemp, pure_bind_ex, pure_eq_ok,
          ok_bind]
    rw [step, map_ok_ex]
    exact congrArg Except.ok (headers_merge _ H hH k)

/-- Witness for C4: a caller header colliding with the `authorization` key
overrides it, and the admin branch merges the secret with extra headers. -/
theorem header_derivation_witness :
    ((Hasura.mk "e/v1/graphql" "e/v2/query" none none)._get_headers
        "Bearer t" (some [("authorization", "X")])).map
        (fun R => R.lookup "authorization") = .ok (some "X") ∧
    ((Hasura.mk "e/v1/graphql" "e/v2/query" (some "s") none)._get_headers
        "ADMIN" (some [("x", "y")])).map
        (fun R => R.lookup "x-hasura-admin-secret") = .ok (some "s") :=
  ⟨(header_derivation (Hasura.mk "e/v1/graphql" "e/v2/query" none none)
      "Bearer t" [("authorization", "X")] (by simp)).2
      (by decide) "authorization",
   (header_derivation (Hasura.mk "e/v1/graphql" "e/v2/query" (some "s") none)
      "ADMIN" [("x", "y")] (by simp)).1 "s" rfl rfl
      (by decide) "x-hasura-admin-secret"⟩

/-! ### C10: empty admin secret is rejected like a missing one -/

/-- C10: header derivation for the `ADMIN` selector fails an assertion both
when no admin secret is configured and when the configured secret is the
empty string, and consequently so do `sql` and `asql`, which always use
`ADMIN`. -/
theorem empty_admin_secret_rejected (h : Hasura)
    (H : Option (List (String × String))) (q : String) (post : Transport)
    (hsec : h.admin_secret = none ∨ h.admin_secret = some "") :
    h._get_headers ADMIN H = .error .assertFail ∧
    h.sql q H post = .error .assertFail ∧
    h.asql q H post = .error .assertFail := by
  have hfalse : strOptTruthy h.admin_secret = false := by
    rcases hsec with h' | h' <;> simp [h', strOptTruthy]
  have hh : h._get_headers ADMIN H = .error .assertFail := by
    simp [Hasura._get_headers, hfalse, throw_bind_ex, throw_eq_error,
      error_bind]
  exact ⟨hh, by simp [Hasura.sql, hh, error_bind],
    by simp [Hasura.asql, hh, error_bind]⟩

/-- Witness for C10: a client whose configured admin secret is the empty
string; `sql` fails the assertion. -/
theorem empty_admin_secret_rejected_witness :
    (Hasura.mk "e/v1/graphql" "e/v2/query" (some "") none).sql
        "SELECT 1" none (fun _ => []) = .error .assertFail :=
  (empty_admin_secret_rejected
    (Hasura.mk "e/v1/graphql" "e/v2/query" (some "") none)
    none "SELECT 1" (fun _ => []) (Or.inr rfl)).2.1

/-! ### C5: construction guard and stored configuration -/

theorem pyEndswith_iff (s t : String) :
    pyEndswith s t = true ↔ ∃ p : String, s = p ++ t := by
  unfold pyEndswith
  rw [List.isSuffixOf_iff_suffix]
  constructor
  · rintro ⟨u, hu⟩
    refine ⟨String.mk u, ?_⟩
    apply String.ext
    rw [String.data_append]
    exact hu.symm
  · rintro ⟨p, rfl⟩
    exact ⟨p.data, (String.data_append p t).symm⟩

/-- C5: construction rejects exactly the base endpoints ending in `/`,
`/v1/graphql` or `/v2/query`; every other base is accepted and the stored
configuration is `base + "/v1/graphql"`, `base + "/v2/query"`, and the
admin secret and timeout verbatim. -/
theorem construction_guard (e : String) (s : Option String)
    (t : Option Float) :
    (((∃ p : String, e = p ++ "/") ∨ (∃ p : String, e = p ++ "/v1/graphql") ∨
        (∃ p : String, e = p ++ "/v2/query")) →
      Hasura.init e s t = .error .assertFail) ∧
    ((¬∃ p : String, e = p ++ "/") → (¬∃ p : String, e = p ++ "/v1/graphql") →
      (¬∃ p : String, e = p ++ "/v2/query") →
      Hasura.init e s t =
        .ok ⟨e ++ "/v1/graphql", e ++ "/v2/query", s, t⟩) := by
  constructor
  · intro hd
    by_cases h1 : pyEndswith e "/" = true
    · simp [Hasura.init, h1]
    · by_cases h2 : pyEndswith e "/v1/graphql" = true
      · simp [Hasura.init, h1, h2]
      · by_cases h3 : pyEndswith e "/v2/query" = true
        · simp [Hasura.init, h1, h2, h3]
        · exfalso
          rcases hd with h | h | h
          · exact h1 ((pyEndswith_iff e "/").mpr h)
          · exact h2 ((pyEndswith_iff e "/v1/graphql").mpr h)
          · exact h3 ((pyEndswith_iff e "/v2/query").mpr h)
  · intro h1 h2 h3
    have e1 : pyEndswith e "/" = false := by
      rw [Bool.eq_false_iff]
      exact fun hc => h1 ((pyEndswith_iff _ _).mp hc)
    have e2 : pyEndswith e "/v1/graphql" = false := by
      rw [Bool.eq_false_iff]
      exact fun hc => h2 ((pyEndswith_iff _ _).mp hc)
    have e3 : pyEndswith e "/v2/query" = false := by
      rw [Bool.eq_false_iff]
      exact fun hc => h3 ((pyEndswith_iff _ _).mp hc)
    simp [Hasura.init, e1, e2, e3]

/-- Witness for C5: a trailing-slash base is rejected; an accepted base
yields the two derived endpoints and stores secret and timeout verbatim. -/
theorem construction_guard_witness :
    Hasura.init "http://h/" none (some 10) = .error .assertFail ∧
    Hasura.init "http://h" (some "s") (some 10) =
      .ok ⟨"http://h/v1/graphql", "http://h/v2/query", some "s", some 10⟩ := by
  constructor
  · exact (construction_guard "http://h/" none (some 10)).1
      (Or.inl ⟨"http://h", rfl⟩)
  · have step := (construction_guard "http://h" (some "s") (some 10)).2
      (fun ⟨p, hp⟩ => absurd ((pyEndswith_iff _ _).mpr ⟨p, hp⟩) (by decide))
      (fun ⟨p, hp⟩ => absurd ((pyEndswith_iff _ _).mpr ⟨p, hp⟩) (by decide))
      (fun ⟨p, hp⟩ => absurd ((pyEndswith_iff _ _).mpr ⟨p, hp⟩) (by decide))
    exact step

/-! ### C6: SQL request body and read-only detection -/

theorem map_toUpper_eq_iff (l target : List Char)
    (ht : ∀ c ∈ target, c.toUpper = c) :
    l.map Char.toUpper = target ↔
      (l.length = target.length ∧
        ∀ p ∈ l.zip target, p.1.toUpper = p.2.toUpper) := by
  induction l generalizing target with
  | nil => cases target <;> simp
  | cons a l ih =>
    cases target with
    | nil => simp
    | cons t ts =>
      have hts : ∀ c ∈ ts, c.toUpper = c :=
        fun c hc => ht c (List.mem_cons_of_mem _ hc)
      have hhead : t.toUpper = t := ht t (List.mem_cons_self t ts)
      simp only [List.map_cons, List.cons.injEq, List.length_cons,
        List.zip_cons_cons, List.mem_cons, add_left_inj]
      constructor
      · rintro ⟨ha, hrest⟩
        rw [ih ts hts] at hrest
        refine ⟨hrest.1, ?_⟩
        rintro p (hp | hp)
        · rw [hp]
          rw [hhead, ha]
        · exact hrest.2 p hp
      · rintro ⟨hlen, hall⟩
        have ha : a.toUpper = t := by
          have := hall (a, t) (Or.inl rfl)
          rwa [hhead] at this
        exact ⟨ha, (ih ts hts).mpr
          ⟨hlen, fun p hp => hall p (Or.inr hp)⟩⟩

/-- C6: the SQL request body is
`{"type": "run_sql", "args": {"sql": q, "read_only": f(q)}}`, where `f`
holds exactly when the first 6 characters of the whitespace-stripped query
equal `"SELECT"` case-insensitively (shorter stripped queries give
`false`). -/
theorem run_sql_content_read_only (q : String) :
    Hasura._get_run_sql_content q =
      Json.obj [("type", Json.str "run_sql"),
                ("args", Json.obj [("sql", Json.str q),
                                   ("read_only",
                                    Json.bool (read_only_spec q))])] := by
  unfold Hasura._get_run_sql_content
  suffices hb :
      (((pyLstrip q).data.take 6).map Char.toUpper == "SELECT".data) =
        read_only_spec q by
    rw [hb]
  rw [Bool.eq_iff_iff]
  unfold read_only_spec
  simp only [beq_iff_eq, decide_eq_true_eq]
  have hup : ∀ c ∈ "SELECT".data, c.toUpper = c := by decide
  have := map_toUpper_eq_iff ((pyLstrip q).data.take 6) "SELECT".data hup
  rw [this]
  have hlen : ("SELECT".data).length = 6 := by decide
  rw [hlen]

/-! ### C8: the sync and async variants are request/response identical -/

/-- C8: for both operation pairs, the sync and async variants hand the
transport the same request (URL, headers, JSON body, timeout) and, for every
transport response function, produce identical results and errors; moreover
each call is exactly its sent request followed by the shared normalizer. -/
theorem sync_async_equivalence (h : Hasura) (q auth : String)
    (H : Option (List (String × String))) (vars : JDict)
    (sq : String) (sH : Option (List (String × String))) (post : Transport) :
    h.gql_sent q auth H vars = h.agql_sent q auth H vars ∧
    h.sql_sent sq sH = h.asql_sent sq sH ∧
    h.gql q auth H vars post = h.agql q auth H vars post ∧
    h.sql sq sH post = h.asql sq sH post ∧
    h.gql q auth H vars post =
      (h.gql_sent q auth H vars).bind (fun r => Hasura._get_data (post r)) ∧
    h.sql sq sH post =
      (h.sql_sent sq sH).bind (fun r => Hasura._get_rows (post r)) := by
  refine ⟨rfl, rfl, rfl, rfl, ?_, ?_⟩
  · cases hh : h._get_headers auth H <;>
      simp [Hasura.gql, Hasura.gql_sent, hh, ok_bind, error_bind,
        pure_eq_ok, pure_bind_ex, Except.bind]
  · cases hh : h._get_headers ADMIN sH <;>
      simp [Hasura.sql, Hasura.sql_sent, hh, ok_bind, error_bind,
        pure_eq_ok, pure_bind_ex, Except.bind]

end Ahasura
